import Mathlib

/-!
Verification of the goal-highlight resolution core of the golazo repository
(package `reddit`, file with `PublicJSONFetcher`, `rateLimiter`, `Client`).

The Go source is shallowly embedded:
* durations are `Int` nanoseconds (Go `time.Duration`), Unix times are `Int` seconds;
* the network is an oracle `Nat → NetOutcome` giving, per fetcher call, either a
  transport failure or an HTTP response (status, raw body, and the outcome of
  `json.Unmarshal` on that body);
* stateful code is explicit state passing over `ClientSt` / `rateLimiter`;
* `findBestMatch` (its file is not under src/) is a parameter of the client model,
  so client theorems hold for every scorer;
* the limiter interaction of one fetch is modelled in `Search` (which threads a
  `rateLimiter`); the client orchestration layer consumes the same per-response
  classification (`classifyResponse`) through `doSearchRes` and records its own
  instrumentation traces (fetcher-call count, issued queries, sleeps, and the
  identities for which resolution work started).
-/

namespace Golazo

/-- Key of a goal in the cache: Go struct `GoalLinkKey{MatchID, Minute}`. -/
structure GoalLinkKey where
  matchID : Int
  minute : Int
deriving DecidableEq

/-- Input describing a goal to search for (Go struct `GoalInfo`). -/
structure GoalInfo where
  matchID : Int
  minute : Int
  homeTeam : String
  awayTeam : String
  isHomeTeam : Bool
  matchTime : Int
deriving DecidableEq

/-- One search candidate post (Go struct `SearchResult`). -/
structure SearchResult where
  title : String
  url : String
  postURL : String
  flair : String
  createdAt : Int
deriving DecidableEq

/-- A resolved highlight link (Go struct `GoalLink`). -/
structure GoalLink where
  matchID : Int
  minute : Int
  url : String
  title : String
  postURL : String
  fetchedAt : Int
deriving DecidableEq

/-- Whether the first list is an initial segment of the second. -/
def leadsWith : List Char → List Char → Bool
  | [], _ => true
  | _ :: _, [] => false
  | a :: as, b :: bs => a == b && leadsWith as bs

/-- Whether `needle` occurs contiguously inside the second list. -/
def occursInChars (needle : List Char) : List Char → Bool
  | [] => needle.isEmpty
  | c :: rest => leadsWith needle (c :: rest) || occursInChars needle rest

/-- Go `strings.Contains hay needle`. -/
def strContains (hay needle : String) : Bool :=
  occursInChars needle.data hay.data

/-- Go `strings.ToLower` (the phrases matched are ASCII). -/
def strToLower (s : String) : String :=
  String.mk (s.data.map Char.toLower)

/-- The fixed bot-challenge phrase list of `isCaptchaResponse`. -/
def captchaIndicators : List String :=
  ["prove your humanity", "captcha", "robot", "automated", "blocked",
   "rate limit", "too many requests"]

/-- Go `isCaptchaResponse`: case-insensitive containment of any indicator. -/
def isCaptchaResponse (body : String) : Bool :=
  captchaIndicators.any fun indicator => strContains (strToLower body) indicator

/-- The HTML detection applied when `json.Unmarshal` fails in `Search`. -/
def looksLikeHTML (body : String) : Bool :=
  strContains body "<html" || strContains body "<!DOCTYPE html"

/-- Ten minutes in nanoseconds (Go `10 * time.Minute`). -/
def tenMinutesNS : Int := 600 * 1000000000

/-- One minute in nanoseconds (Go `time.Minute`). -/
def minuteNS : Int := 60 * 1000000000

/-- Adaptive rate limiter state (Go struct `rateLimiter`). -/
structure rateLimiter where
  lastRequest : Int
  minInterval : Int
  captchaCount : Nat
  lastCaptchaTime : Int
deriving DecidableEq

/-- Go `newRateLimiter`: interval is one minute divided by the request budget. -/
def newRateLimiter (requestsPerMinute : Int) : rateLimiter :=
  { lastRequest := 0
    minInterval := minuteNS / requestsPerMinute
    captchaCount := 0
    lastCaptchaTime := 0 }

/-- Go `rateLimiter.wait` at instant `now`: returns the slept duration and the
updated state; `lastRequest` becomes the instant the sleep finishes. -/
def rateLimiter.wait (r : rateLimiter) (now : Int) : Int × rateLimiter :=
  let elapsed := now - r.lastRequest
  let currentInterval :=
    if r.captchaCount > 0 ∧ now - r.lastCaptchaTime < tenMinutesNS then
      r.minInterval * 2
    else r.minInterval
  let sleepTime := if elapsed < currentInterval then currentInterval - elapsed else 0
  (sleepTime, { r with lastRequest := now + sleepTime })

/-- Go `rateLimiter.recordCaptchaError` at instant `now`. -/
def rateLimiter.recordCaptchaError (r : rateLimiter) (now : Int) : rateLimiter :=
  { r with captchaCount := r.captchaCount + 1, lastCaptchaTime := now }

/-- One network interaction as seen by `Search`: either the HTTP round trip
fails, or it yields a status, a raw body, and the result of `json.Unmarshal`
on that body (`none` = parse error). -/
inductive NetOutcome where
  | fail (msg : String)
  | resp (status : Nat) (body : String) (json : Option (List SearchResult))

/-- Response classification of Go `PublicJSONFetcher.Search` after the HTTP
call: the `Except` value is the returned (results, error) pair and the `Bool`
records whether `rateLimiter.recordCaptchaError` was invoked. -/
def classifyResponse (o : NetOutcome) : Except String (List SearchResult) × Bool :=
  match o with
  | .fail msg => (.error ("fetch from reddit: " ++ msg), false)
  | .resp status body json =>
    if status ≠ 200 then
      (.error ("reddit API error: status " ++ toString status ++ ", body: " ++ body), false)
    else if isCaptchaResponse body then
      (.error "reddit is blocking requests (CAPTCHA/bot detection)", true)
    else
      match json with
      | some children => (.ok (children.filter fun r => r.flair == "Media"), false)
      | none =>
        if looksLikeHTML body then
          (.error "reddit returned HTML instead of JSON (likely CAPTCHA or rate limit)", false)
        else
          (.error "parse response: invalid JSON", false)

/-- The request `Search` builds: query text, the `flair:Media` restriction and
the `timestamp:start..end` window of the search URL. -/
structure SearchRequest where
  query : String
  flairFilter : String
  startTime : Int
  endTime : Int
  limit : Nat
deriving DecidableEq

/-- Go `Search` URL construction: window is `matchTime - 24h .. matchTime + 48h`
in Unix seconds, restricted to the `Media` flair. -/
def buildSearchRequest (query : String) (lim : Nat) (matchTime : Int) : SearchRequest :=
  { query := query
    flairFilter := "Media"
    startTime := matchTime - 24 * 3600
    endTime := matchTime + 48 * 3600
    limit := lim }

/-- Everything one `Search` call produces. -/
structure SearchOutput where
  request : SearchRequest
  result : Except String (List SearchResult)
  limiter : rateLimiter
  slept : Int

/-- Go `PublicJSONFetcher.Search`: waits on the shared limiter, issues the
request described by `buildSearchRequest`, classifies the outcome `o`, and
reports to the limiter exactly when the captcha branch fires. -/
def Search (query : String) (lim : Nat) (matchTime : Int) (o : NetOutcome)
    (r : rateLimiter) (now : Int) : SearchOutput :=
  let w := r.wait now
  let c := classifyResponse o
  { request := buildSearchRequest query lim matchTime
    result := c.1
    limiter := if c.2 then w.2.recordCaptchaError now else w.2
    slept := w.1 }

/-- The retry classification in Go `searchForGoal`: an error is retried when
its message mentions CAPTCHA, blocking, or rate limiting. -/
def retryableErr (msg : String) : Bool :=
  strContains msg "CAPTCHA" || strContains msg "blocking requests" ||
    strContains msg "rate limit"

/-- Whether a fetch result is an error that `searchForGoal` classifies as retryable. -/
def isErrRetryable : Except String (List SearchResult) → Bool
  | .error msg => retryableErr msg
  | .ok _ => false

/-- The error message of a fetch result, if any. -/
def errMsgOf : Except String (List SearchResult) → Option String
  | .error msg => some msg
  | .ok _ => none

/-- The soft-block classification described by the spec: a 200 response whose
body matches a bot-challenge phrase, or is non-JSON HTML where JSON was
expected. -/
def softBlockClassified (o : NetOutcome) : Bool :=
  match o with
  | .fail _ => false
  | .resp status body json =>
    status == 200 && (isCaptchaResponse body || (json.isNone && looksLikeHTML body))

/-- Modelled from the spec: the GoalLinkCache implementation file is not under
src/ (only its call sites in `Client` are), so the cache entry is the spec
tagged union over Resolved and ConfirmedAbsent; Unknown is absence of a record. -/
inductive CacheEntry where
  | resolved (link : GoalLink)
  | confirmedAbsent (fetchedAt : Int)
deriving DecidableEq

/-- Modelled from the spec: the durable key to entry store of GoalLinkCache,
as a record list keyed by `GoalLinkKey`. -/
abbrev GoalLinkCache := List (GoalLinkKey × CacheEntry)

/-- Modelled from the spec: `GoalLinkCache.Get`; `none` is the Unknown state. -/
def GoalLinkCache.get (c : GoalLinkCache) (k : GoalLinkKey) : Option CacheEntry :=
  match c with
  | [] => none
  | (k', e) :: rest => if k' = k then some e else GoalLinkCache.get rest k

/-- Modelled from the spec: `GoalLinkCache.Set` stores a Resolved entry under
the link identity. -/
def GoalLinkCache.set (c : GoalLinkCache) (link : GoalLink) : GoalLinkCache :=
  (⟨link.matchID, link.minute⟩, .resolved link) :: c

/-- Modelled from the spec: `GoalLinkCache.SetNotFound` stores the
ConfirmedAbsent marker for an identity, stamped at `now`. -/
def GoalLinkCache.setNotFound (c : GoalLinkCache) (matchID minute now : Int) :
    GoalLinkCache :=
  (⟨matchID, minute⟩, .confirmedAbsent now) :: c

/-- Modelled from the spec: `GoalLinkCache.Clear` removes all entries. -/
def GoalLinkCache.clear (_ : GoalLinkCache) : GoalLinkCache := []

/-- Client-side execution state: the cache plus instrumentation traces of the
run (number of fetcher calls, the (query, limit) pairs issued, the sleep
durations in order, and the identities for which resolution work was started). -/
structure ClientSt where
  cache : GoalLinkCache
  calls : Nat
  requests : List (String × Nat)
  sleeps : List Int
  resolved : List GoalLinkKey
deriving DecidableEq

/-- The collaborators of `Client`: the network oracle (indexed by fetcher call
number), the `findBestMatch` scorer (its file is not under src/, so the model
is parameterized over it), and the model instant used for `time.Now()`. -/
structure Ctx where
  net : Nat → NetOutcome
  fbm : List SearchResult → GoalInfo → Option SearchResult
  now : Int

/-- The cache key of a goal, as built in `GoalLink` and `GoalLinks`. -/
def goalKey (g : GoalInfo) : GoalLinkKey :=
  ⟨g.matchID, g.minute⟩

/-- The `GoalLink` value built from an accepted match in `searchForGoalOnce`. -/
def mkGoalLink (g : GoalInfo) (m : SearchResult) (now : Int) : GoalLink :=
  { matchID := g.matchID
    minute := g.minute
    url := m.url
    title := m.title
    postURL := m.postURL
    fetchedAt := now }

/-- Result of the fetcher call the client is about to make. -/
def doSearchRes (ctx : Ctx) (st : ClientSt) : Except String (List SearchResult) :=
  (classifyResponse (ctx.net st.calls)).1

/-- State update for one fetcher call issuing query `q` with limit `lim`. -/
def doSearchSt (q : String) (lim : Nat) (st : ClientSt) : ClientSt :=
  { st with calls := st.calls + 1, requests := st.requests ++ [(q, lim)] }

/-- An apostrophe, the minute marker of the Go format string. -/
def minuteMark : String := String.mk [Char.ofNat 39]

/-- URL-keyed first-occurrence deduplication of `searchForGoalOnce`. -/
def dedupByURLAux (seen : List String) : List SearchResult → List SearchResult
  | [] => []
  | r :: rest =>
    if seen.contains r.url then dedupByURLAux seen rest
    else r :: dedupByURLAux (r.url :: seen) rest

/-- Go duplicate removal by URL, preserving first occurrences. -/
def dedupByURL (rs : List SearchResult) : List SearchResult :=
  dedupByURLAux [] rs

/-- Second half of Go `searchForGoalOnce`: the broader scoring-team query,
pooling with `allResults`, URL deduplication and final scoring. Note the Go
code overwrites `err` here and returns `nil` as error on every path. -/
def searchOnceStage2 (ctx : Ctx) (goal : GoalInfo) (allResults : List SearchResult)
    (st : ClientSt) : (Option GoalLink × Option String) × ClientSt :=
  let scoringTeam := if goal.isHomeTeam then goal.homeTeam else goal.awayTeam
  let query2 := scoringTeam ++ " " ++ toString goal.minute ++ minuteMark
  let r2 := doSearchRes ctx st
  let st2 := doSearchSt query2 15 st
  let pooled :=
    match r2 with
    | .ok results2 => allResults ++ results2
    | .error _ => allResults
  match ctx.fbm (dedupByURL pooled) goal with
  | none => ((none, none), st2)
  | some m => ((some (mkGoalLink goal m ctx.now), none), st2)

/-- Go `Client.searchForGoalOnce`: the specific two-team query, immediate
acceptance on a scoring match, otherwise the stage-2 broader query. -/
def searchForGoalOnce (ctx : Ctx) (goal : GoalInfo) (st : ClientSt) :
    (Option GoalLink × Option String) × ClientSt :=
  let query1 := goal.homeTeam ++ " " ++ goal.awayTeam ++ " " ++
    toString goal.minute ++ minuteMark
  let r1 := doSearchRes ctx st
  let st1 := doSearchSt query1 15 st
  match r1 with
  | .ok results1 =>
    match ctx.fbm results1 goal with
    | some m => ((some (mkGoalLink goal m ctx.now), none), st1)
    | none => searchOnceStage2 ctx goal results1 st1
  | .error _ => searchOnceStage2 ctx goal [] st1

/-- Go `maxRetries` of `searchForGoal`. -/
def maxRetries : Nat := 3

/-- Go `baseDelay` of `searchForGoal` (30 seconds), in nanoseconds. -/
def baseDelayNS : Int := 30 * 1000000000

/-- The attempt loop of Go `Client.searchForGoal`; `fuel` is the number of
loop iterations still allowed (`maxRetries - attempt`). -/
def searchForGoalAux (ctx : Ctx) (goal : GoalInfo) :
    Nat → Nat → ClientSt → (Option GoalLink × Option String) × ClientSt
  | 0, _, st => ((none, none), st)
  | fuel + 1, attempt, st =>
    let st :=
      if attempt > 0 then
        { st with sleeps := st.sleeps ++ [(Int.ofNat attempt) * baseDelayNS] }
      else st
    let out := searchForGoalOnce ctx goal st
    match out.1.2 with
    | none => ((out.1.1, none), out.2)
    | some msg =>
      if retryableErr msg ∧ attempt < maxRetries - 1 then
        searchForGoalAux ctx goal fuel (attempt + 1) out.2
      else ((none, some msg), out.2)

/-- Go `Client.searchForGoal`: the retry loop entered at attempt 0. -/
def searchForGoal (ctx : Ctx) (goal : GoalInfo) (st : ClientSt) :
    (Option GoalLink × Option String) × ClientSt :=
  searchForGoalAux ctx goal maxRetries 0 st

/-- Go `Client.GoalLink`: cache check (ConfirmedAbsent served as no result,
Resolved served directly), then search, then the cache write. The `resolved`
trace records that resolution work started for the identity. -/
def Client.GoalLink (ctx : Ctx) (goal : GoalInfo) (st : ClientSt) :
    (Option GoalLink × Option String) × ClientSt :=
  match st.cache.get (goalKey goal) with
  | some (.confirmedAbsent _) => ((none, none), st)
  | some (.resolved link) => ((some link, none), st)
  | none =>
    let st := { st with resolved := st.resolved ++ [goalKey goal] }
    let out := searchForGoal ctx goal st
    match out.1.2 with
    | some msg => ((none, some msg), out.2)
    | none =>
      match out.1.1 with
      | some link => ((some link, none), { out.2 with cache := out.2.cache.set link })
      | none =>
        ((none, none),
         { out.2 with cache := out.2.cache.setNotFound goal.matchID goal.minute ctx.now })

/-- Go `BatchSize`. -/
def BatchSize : Nat := 5

/-- Go `BatchDelay` (2 seconds), in nanoseconds. -/
def batchDelayNS : Int := 2 * 1000000000

/-- The batched fetch loop of Go `Client.GoalLinks`, flattened per goal: `i` is
the number of uncached goals already processed, and the 2-second batch delay is
slept exactly when `i` is a positive multiple of `BatchSize` (the Go loop
sleeps before every batch except the first). -/
def goalLinksLoop (ctx : Ctx) :
    Nat → List GoalInfo → ClientSt → List (GoalLinkKey × GoalLink) × ClientSt
  | _, [], st => ([], st)
  | i, goal :: rest, st =>
    let st1 :=
      if i % BatchSize = 0 ∧ i ≠ 0 then
        { st with sleeps := st.sleeps ++ [batchDelayNS] }
      else st
    let out := Client.GoalLink ctx goal st1
    let res := goalLinksLoop ctx (i + 1) rest out.2
    match out.1 with
    | (some link, none) => ((goalKey goal, link) :: res.1, res.2)
    | _ => (res.1, res.2)

/-- First pass of Go `Client.GoalLinks`: deduplicate by key (keeping first
occurrences), serve cached Resolved entries, drop cached ConfirmedAbsent
entries, and collect the uncached goals in input order. -/
def dedupPhase (cache : GoalLinkCache) :
    List GoalInfo → List GoalLinkKey → List (GoalLinkKey × GoalLink) × List GoalInfo
  | [], _ => ([], [])
  | goal :: rest, seen =>
    if goalKey goal ∈ seen then dedupPhase cache rest seen
    else
      let out := dedupPhase cache rest (goalKey goal :: seen)
      match cache.get (goalKey goal) with
      | some (.resolved link) => ((goalKey goal, link) :: out.1, out.2)
      | some (.confirmedAbsent _) => (out.1, out.2)
      | none => (out.1, goal :: out.2)

/-- Go `Client.GoalLinks`: the returned association list is the key to link
map; successful fetches and cached Resolved entries contribute, failures and
ConfirmedAbsent entries do not. -/
def Client.GoalLinks (ctx : Ctx) (goals : List GoalInfo) (st : ClientSt) :
    List (GoalLinkKey × Golazo.GoalLink) × ClientSt :=
  let dd := dedupPhase st.cache goals []
  let out := goalLinksLoop ctx 0 dd.2 st
  (dd.1 ++ out.1, out.2)

/-- Go `Client.ClearCache`. -/
def Client.ClearCache (st : ClientSt) : ClientSt :=
  { st with cache := st.cache.clear }

/-- Number of batch-delay sleeps the `goalLinksLoop` performs over `m` goals
starting at processed count `i`. -/
def countBatchMarks : Nat → Nat → Nat
  | _, 0 => 0
  | i, m + 1 =>
    (if i % BatchSize = 0 ∧ i ≠ 0 then 1 else 0) + countBatchMarks (i + 1) m

/-- A fresh client state over cache `c`. -/
def initSt (c : GoalLinkCache) : ClientSt :=
  { cache := c, calls := 0, requests := [], sleeps := [], resolved := [] }

/-- Oracle: every call yields a non-2xx status (a hard, non-retryable failure). -/
def netHard : Nat → NetOutcome := fun _ => .resp 500 "upstream failure" none

/-- Oracle: every call yields a 200 bot-challenge page (a soft block). -/
def netSoft : Nat → NetOutcome := fun _ => .resp 200 "captcha" none

/-- Oracle: every call fails at the transport layer. -/
def netDown : Nat → NetOutcome := fun _ => .fail "connection refused"

/-- A scorer that accepts no candidate (any scorer returns `none` on an empty
candidate list, which is the only case the error-path theorems exercise). -/
def noScore : List SearchResult → GoalInfo → Option SearchResult := fun _ _ => none

/-- Context over a given oracle, with the no-accept scorer and instant 0. -/
def ctxOf (net : Nat → NetOutcome) : Ctx :=
  { net := net, fbm := noScore, now := 0 }

/-- The scenario goal of spec section 8. -/
def goalEx : GoalInfo :=
  { matchID := 555, minute := 73, homeTeam := "Inter", awayTeam := "Dortmund",
    isHomeTeam := true, matchTime := 0 }

/-- A small goal used by witnesses. -/
def g12 : GoalInfo :=
  { matchID := 1, minute := 2, homeTeam := "A", awayTeam := "B",
    isHomeTeam := false, matchTime := 0 }

/-- Another small goal used by witnesses. -/
def g34 : GoalInfo :=
  { matchID := 3, minute := 4, homeTeam := "C", awayTeam := "D",
    isHomeTeam := true, matchTime := 0 }

/-- A third small goal used by witnesses. -/
def g56 : GoalInfo :=
  { matchID := 5, minute := 6, homeTeam := "E", awayTeam := "F",
    isHomeTeam := false, matchTime := 0 }

/-- A cached resolved link for the identity of `g12`. -/
def linkEx : GoalLink :=
  { matchID := 1, minute := 2, url := "u", title := "t", postURL := "p",
    fetchedAt := 0 }

/-- A cache holding `g12` resolved and the identity of `g34` confirmed absent. -/
def cacheEx : GoalLinkCache :=
  [(⟨1, 2⟩, .resolved linkEx), (⟨3, 4⟩, .confirmedAbsent 0)]

/-- A state whose cache marks the identity of `g12` confirmed absent. -/
def stCA : ClientSt := initSt [(⟨1, 2⟩, .confirmedAbsent 0)]

/-- Twelve goals with pairwise distinct identities. -/
def goalsEx12 : List GoalInfo :=
  (List.range 12).map fun i =>
    { matchID := i, minute := 0, homeTeam := "A", awayTeam := "B",
      isHomeTeam := true, matchTime := 0 }

theorem GoalLinkCache.get_cons (k' : GoalLinkKey) (e : CacheEntry)
    (c : GoalLinkCache) (k : GoalLinkKey) :
    GoalLinkCache.get ((k', e) :: c) k = if k' = k then some e else c.get k := rfl

theorem GoalLinkCache.get_clear (c : GoalLinkCache) (k : GoalLinkKey) :
    (GoalLinkCache.clear c).get k = none := rfl

theorem searchOnceStage2_spec (ctx : Ctx) (g : GoalInfo) (rs : List SearchResult)
    (st : ClientSt) :
    (searchOnceStage2 ctx g rs st).1.2 = none ∧
    (searchOnceStage2 ctx g rs st).2.cache = st.cache ∧
    (searchOnceStage2 ctx g rs st).2.sleeps = st.sleeps ∧
    (searchOnceStage2 ctx g rs st).2.resolved = st.resolved ∧
    (searchOnceStage2 ctx g rs st).2.calls = st.calls + 1 ∧
    (∀ link, (searchOnceStage2 ctx g rs st).1.1 = some link →
      link.matchID = g.matchID ∧ link.minute = g.minute) := by
  unfold searchOnceStage2
  dsimp only
  split <;> split <;> simp_all [doSearchSt, mkGoalLink]

theorem searchForGoalOnce_spec (ctx : Ctx) (g : GoalInfo) (st : ClientSt) :
    (searchForGoalOnce ctx g st).1.2 = none ∧
    (searchForGoalOnce ctx g st).2.cache = st.cache ∧
    (searchForGoalOnce ctx g st).2.sleeps = st.sleeps ∧
    (searchForGoalOnce ctx g st).2.resolved = st.resolved ∧
    st.calls + 1 ≤ (searchForGoalOnce ctx g st).2.calls ∧
    (∀ link, (searchForGoalOnce ctx g st).1.1 = some link →
      link.matchID = g.matchID ∧ link.minute = g.minute) := by
  unfold searchForGoalOnce
  dsimp only
  split
  next results1 heq =>
    split
    next m heq2 => simp_all [doSearchSt, mkGoalLink]
    next heq2 =>
      obtain ⟨h1, h2, h3, h4, h5, h6⟩ := searchOnceStage2_spec ctx g results1
        (doSearchSt (g.homeTeam ++ " " ++ g.awayTeam ++ " " ++ toString g.minute ++ minuteMark) 15 st)
      dsimp only [doSearchSt] at h1 h2 h3 h4 h5 h6 ⊢
      exact ⟨h1, h2, h3, h4, by omega, h6⟩
  next e heq =>
    obtain ⟨h1, h2, h3, h4, h5, h6⟩ := searchOnceStage2_spec ctx g []
      (doSearchSt (g.homeTeam ++ " " ++ g.awayTeam ++ " " ++ toString g.minute ++ minuteMark) 15 st)
    dsimp only [doSearchSt] at h1 h2 h3 h4 h5 h6 ⊢
    exact ⟨h1, h2, h3, h4, by omega, h6⟩

theorem searchForGoal_eq_once (ctx : Ctx) (g : GoalInfo) (st : ClientSt) :
    searchForGoal ctx g st =
      (((searchForGoalOnce ctx g st).1.1, none), (searchForGoalOnce ctx g st).2) := by
  have h := (searchForGoalOnce_spec ctx g st).1
  show searchForGoalAux ctx g 3 0 st = _
  unfold searchForGoalAux
  simp [h]

theorem goalLink_hit_absent (ctx : Ctx) (g : GoalInfo) (st : ClientSt) (t : Int)
    (h : st.cache.get (goalKey g) = some (.confirmedAbsent t)) :
    Client.GoalLink ctx g st = ((none, none), st) := by
  unfold Client.GoalLink
  rw [h]

theorem goalLink_hit_resolved (ctx : Ctx) (g : GoalInfo) (st : ClientSt)
    (link : GoalLink) (h : st.cache.get (goalKey g) = some (.resolved link)) :
    Client.GoalLink ctx g st = ((some link, none), st) := by
  unfold Client.GoalLink
  rw [h]

theorem goalLink_miss_spec (ctx : Ctx) (g : GoalInfo) (st : ClientSt)
    (h : st.cache.get (goalKey g) = none) :
    (Client.GoalLink ctx g st).1.2 = none ∧
    (Client.GoalLink ctx g st).2.resolved = st.resolved ++ [goalKey g] ∧
    (Client.GoalLink ctx g st).2.sleeps = st.sleeps ∧
    st.calls + 1 ≤ (Client.GoalLink ctx g st).2.calls ∧
    (∀ k, k ≠ goalKey g → (Client.GoalLink ctx g st).2.cache.get k = st.cache.get k) ∧
    (∀ link, (Client.GoalLink ctx g st).1.1 = some link →
      (Client.GoalLink ctx g st).2.cache.get (goalKey g) = some (.resolved link)) ∧
    ((Client.GoalLink ctx g st).1.1 = none →
      (Client.GoalLink ctx g st).2.cache.get (goalKey g) = some (.confirmedAbsent ctx.now)) := by
  unfold Client.GoalLink
  rw [h]
  dsimp only
  rw [searchForGoal_eq_once]
  dsimp only
  obtain ⟨-, hc, hs, hr, hcalls, hids⟩ :=
    searchForGoalOnce_spec ctx g { st with resolved := st.resolved ++ [goalKey g] }
  dsimp only at hc hs hr hcalls
  cases ho : (searchForGoalOnce ctx g { st with resolved := st.resolved ++ [goalKey g] }).1.1 with
  | none =>
    refine ⟨by simp [ho], by simp [ho, hr], by simp [ho, hs], by simp [ho]; omega, ?_, ?_, ?_⟩
    · intro k hk
      simp only [ho]
      rw [GoalLinkCache.setNotFound, GoalLinkCache.get_cons,
        if_neg (show ¬(GoalLinkKey.mk g.matchID g.minute = k) from fun he => hk he.symm), hc]
    · intro link hl
      simp [ho] at hl
    · intro _
      simp only [ho]
      rw [GoalLinkCache.setNotFound, GoalLinkCache.get_cons,
        if_pos (show GoalLinkKey.mk g.matchID g.minute = goalKey g from rfl)]
  | some link =>
    obtain ⟨hid1, hid2⟩ := hids link ho
    have hkey : (⟨link.matchID, link.minute⟩ : GoalLinkKey) = goalKey g := by
      rw [goalKey, hid1, hid2]
    refine ⟨by simp [ho], by simp [ho, hr], by simp [ho, hs], by simp [ho]; omega, ?_, ?_, ?_⟩
    · intro k hk
      simp only [ho]
      rw [GoalLinkCache.set, GoalLinkCache.get_cons, hkey,
        if_neg (show ¬(goalKey g = k) from fun he => hk he.symm), hc]
    · intro link' hl
      simp [ho] at hl
      subst hl
      simp only [ho]
      rw [GoalLinkCache.set, GoalLinkCache.get_cons, hkey, if_pos rfl]
    · intro hnone
      simp [ho] at hnone

/-- C9: for the shared rate limiter, a `wait` that starts within ten minutes of
a recorded soft block (captcha count positive) enforces a spacing of twice the
baseline `minInterval` since the previous request time; a `wait` starting once
the window has lapsed (or with no soft block recorded) enforces exactly the
baseline interval again; `wait` never fails — its sleep is nonnegative and it
records the finishing instant as the new reference point — and
`recordCaptchaError` bumps the count and stamps the window start. -/
theorem rateLimiter_backoff_window (r : rateLimiter) (now : Int) :
    0 ≤ (r.wait now).1 ∧
    (r.wait now).2.lastRequest = now + (r.wait now).1 ∧
    (r.captchaCount > 0 → now - r.lastCaptchaTime < tenMinutesNS →
      r.minInterval * 2 ≤ (r.wait now).2.lastRequest - r.lastRequest) ∧
    ((r.captchaCount = 0 ∨ tenMinutesNS ≤ now - r.lastCaptchaTime) →
      r.minInterval ≤ (r.wait now).2.lastRequest - r.lastRequest ∧
      (r.wait now).1 =
        if now - r.lastRequest < r.minInterval then
          r.minInterval - (now - r.lastRequest)
        else 0) ∧
    (r.recordCaptchaError now).captchaCount = r.captchaCount + 1 ∧
    (r.recordCaptchaError now).lastCaptchaTime = now := by
  unfold rateLimiter.wait rateLimiter.recordCaptchaError
  dsimp only
  refine ⟨?_, rfl, ?_, ?_, rfl, rfl⟩
  · split <;> split <;> omega
  · intro h1 h2
    split
    next hcond => split <;> omega
    next hcond => exact absurd ⟨h1, h2⟩ hcond
  · intro h
    split
    next hcond =>
      cases h with
      | inl h => exact absurd hcond.1 (by omega)
      | inr h => exact absurd hcond.2 (by omega)
    next hcond => exact ⟨by split <;> omega, rfl⟩

/-- C9 witness: with one soft block recorded at instant 0, a `wait` at instant
3 enforces at least twice the baseline interval since the last request. -/
theorem rateLimiter_backoff_window_witness :
    ({ lastRequest := 0, minInterval := 6, captchaCount := 1, lastCaptchaTime := 0
       : rateLimiter }.wait 3).2.lastRequest
      - ({ lastRequest := 0, minInterval := 6, captchaCount := 1, lastCaptchaTime := 0
           : rateLimiter }).lastRequest ≥ 6 * 2 :=
  (rateLimiter_backoff_window
    { lastRequest := 0, minInterval := 6, captchaCount := 1, lastCaptchaTime := 0 } 3).2.2.1
    (by decide) (by decide)

/-- C8: every `Search` call issues a request whose time window is exactly
`matchTime - 24h .. matchTime + 48h` (Unix seconds) restricted to the Media
flair, and every candidate it returns carries the Media flair. -/
theorem search_window_media (q : String) (lim : Nat) (mt : Int) (o : NetOutcome)
    (r : rateLimiter) (now : Int) :
    (Search q lim mt o r now).request.startTime = mt - 24 * 3600 ∧
    (Search q lim mt o r now).request.endTime = mt + 48 * 3600 ∧
    (Search q lim mt o r now).request.flairFilter = "Media" ∧
    (Search q lim mt o r now).request.query = q ∧
    ∀ rs, (Search q lim mt o r now).result = .ok rs →
      ∀ cand ∈ rs, cand.flair = "Media" := by
  refine ⟨rfl, rfl, rfl, rfl, ?_⟩
  intro rs hrs cand hcand
  have hres : (classifyResponse o).1 = .ok rs := hrs
  unfold classifyResponse at hres
  cases o with
  | fail msg => exact absurd hres (by simp)
  | resp status body json =>
    dsimp only at hres
    split at hres
    · exact absurd hres (by simp)
    · split at hres
      · exact absurd hres (by simp)
      · split at hres
        next children heq =>
          rw [Except.ok.injEq] at hres
          subst hres
          have := List.mem_filter.mp hcand
          simpa using this.2
        next heq =>
          split at hres <;> exact absurd hres (by simp)

/-- C8 witness: a 200 response whose decoded list is a single Media post is
returned whole, and the theorem yields its flair. -/
theorem search_window_media_witness :
    (Search "Inter Dortmund" 15 1000
        (.resp 200 "x" (some [{ title := "t", url := "u", postURL := "p",
                                flair := "Media", createdAt := 5 }]))
        (newRateLimiter 10) 0).result
      = .ok [{ title := "t", url := "u", postURL := "p",
               flair := "Media", createdAt := 5 }] ∧
    ({ title := "t", url := "u", postURL := "p", flair := "Media",
       createdAt := 5 : SearchResult }).flair = "Media" :=
  ⟨rfl,
   (search_window_media "Inter Dortmund" 15 1000
      (.resp 200 "x" (some [{ title := "t", url := "u", postURL := "p",
                              flair := "Media", createdAt := 5 }]))
      (newRateLimiter 10) 0).2.2.2.2
     [{ title := "t", url := "u", postURL := "p", flair := "Media", createdAt := 5 }]
     rfl
     { title := "t", url := "u", postURL := "p", flair := "Media", createdAt := 5 }
     (by decide)⟩

/-- C4 counterexample: a 200 response with body containing an html tag but no
bot-challenge phrase, failing JSON decoding, is classified as a (retryable)
soft block, yet `recordCaptchaError` is not invoked: the claim that every
soft-block classification is reported to the shared rate limiter is false. -/
theorem search_htmlSoftBlock_not_reported :
    softBlockClassified (.resp 200 "<html></html>" none) = true ∧
    isErrRetryable (classifyResponse (.resp 200 "<html></html>" none)).1 = true ∧
    (classifyResponse (.resp 200 "<html></html>" none)).2 = false ∧
    (Search "q" 15 0 (.resp 200 "<html></html>" none) (newRateLimiter 10) 0).limiter.captchaCount
      = 0 := by decide

/-- C4 (amended): a 200 response matching a bot-challenge phrase yields a
retryable soft-block error and is reported to the shared rate limiter via
`recordCaptchaError`; a 200 non-JSON HTML response also yields a retryable
soft-block error but is not reported to the rate limiter. -/
theorem search_softBlock_reporting (q : String) (lim : Nat) (mt : Int)
    (status : Nat) (body : String) (json : Option (List SearchResult))
    (r : rateLimiter) (now : Int) :
    (status = 200 → isCaptchaResponse body = true →
      isErrRetryable (Search q lim mt (.resp status body json) r now).result = true ∧
      (Search q lim mt (.resp status body json) r now).limiter.captchaCount
        = r.captchaCount + 1) ∧
    (status = 200 → isCaptchaResponse body = false → json = none →
      looksLikeHTML body = true →
      isErrRetryable (Search q lim mt (.resp status body json) r now).result = true ∧
      (Search q lim mt (.resp status body json) r now).limiter.captchaCount
        = r.captchaCount) := by
  constructor
  · intro h200 hcap
    subst h200
    unfold Search classifyResponse
    dsimp only
    rw [if_neg (by simp : ¬((200 : Nat) ≠ 200)), if_pos hcap]
    exact ⟨by decide, by simp [rateLimiter.recordCaptchaError, rateLimiter.wait]⟩
  · intro h200 hcap hjson hhtml
    subst h200
    subst hjson
    unfold Search classifyResponse
    dsimp only
    rw [if_neg (by simp : ¬((200 : Nat) ≠ 200)),
      if_neg (show ¬(isCaptchaResponse body = true) by simp [hcap]), if_pos hhtml]
    exact ⟨by decide, by simp [rateLimiter.wait]⟩

/-- C4 witness for the amended claim: the captcha branch at a concrete body. -/
theorem search_softBlock_reporting_witness :
    isErrRetryable (Search "q" 15 0 (.resp 200 "captcha" none)
        (newRateLimiter 10) 0).result = true ∧
    (Search "q" 15 0 (.resp 200 "captcha" none)
        (newRateLimiter 10) 0).limiter.captchaCount
      = (newRateLimiter 10).captchaCount + 1 :=
  (search_softBlock_reporting "q" 15 0 200 "captcha" none (newRateLimiter 10) 0).1
    rfl (by decide)

/-- C1 (code bug): with every fetch failing on a non-2xx status (a hard,
non-retryable failure), an uncached `GoalLink` does stop after a single
attempt, but because `searchForGoalOnce` discards fetch errors (the second
`Search` call's assignment overwrites `err` and no error is ever returned),
the caller receives no error and a ConfirmedAbsent entry is written — against
the claim that the hard error is returned and nothing is cached. -/
theorem goalLink_hardError_swallowed :
    errMsgOf (classifyResponse (netHard 0)).1
      = some "reddit API error: status 500, body: upstream failure" ∧
    isErrRetryable (classifyResponse (netHard 0)).1 = false ∧
    (Client.GoalLink (ctxOf netHard) goalEx (initSt [])).1 = (none, none) ∧
    (Client.GoalLink (ctxOf netHard) goalEx (initSt [])).2.calls = 2 ∧
    (Client.GoalLink (ctxOf netHard) goalEx (initSt [])).2.cache.get (goalKey goalEx)
      = some (.confirmedAbsent 0) := by decide

/-- C2 (code bug): with every fetch soft-blocked (200 bot-challenge body), an
uncached `GoalLink` performs a single attempt (two fetch calls), sleeps no
backoff at all, returns no error, and writes a ConfirmedAbsent entry: the
retry loop of `searchForGoal` is unreachable because `searchForGoalOnce`
always returns a nil error, so the claimed 3 attempts with 30s/60s delays and
the propagated soft-block error do not happen. -/
theorem goalLink_softBlock_noRetry :
    isCaptchaResponse "captcha" = true ∧
    errMsgOf (classifyResponse (netSoft 0)).1
      = some "reddit is blocking requests (CAPTCHA/bot detection)" ∧
    retryableErr "reddit is blocking requests (CAPTCHA/bot detection)" = true ∧
    (Client.GoalLink (ctxOf netSoft) goalEx (initSt [])).1 = (none, none) ∧
    (Client.GoalLink (ctxOf netSoft) goalEx (initSt [])).2.calls = 2 ∧
    (Client.GoalLink (ctxOf netSoft) goalEx (initSt [])).2.sleeps = [] ∧
    (Client.GoalLink (ctxOf netSoft) goalEx (initSt [])).2.cache.get (goalKey goalEx)
      = some (.confirmedAbsent 0) := by decide

/-- C3 (code bug): an execution whose search phase consists solely of
transport failures still ends with a `SetNotFound` cache write (and no error
to the caller), contradicting the claim that cache writes happen only on
definitive outcomes and never when the search phase ended in an error. -/
theorem goalLink_cacheWrite_on_error :
    errMsgOf (classifyResponse (netDown 0)).1
      = some "fetch from reddit: connection refused" ∧
    (Client.GoalLink (ctxOf netDown) goalEx (initSt [])).1.2 = none ∧
    (Client.GoalLink (ctxOf netDown) goalEx (initSt [])).2.calls = 2 ∧
    (Client.GoalLink (ctxOf netDown) goalEx (initSt [])).2.cache.get (goalKey goalEx)
      = some (.confirmedAbsent 0) := by decide

/-- C5: a cached ConfirmedAbsent entry makes `GoalLink` return no link and no
error with the state (hence fetcher-call count) unchanged; a cached Resolved
entry is returned directly with the state unchanged; only an uncached
(Unknown) identity triggers a search, which issues at least one fetcher call;
and `ClearCache` empties the cache so every identity is Unknown again. -/
theorem goalLink_cache_semantics (ctx : Ctx) (st : ClientSt) (goal : GoalInfo) :
    (∀ t, st.cache.get (goalKey goal) = some (.confirmedAbsent t) →
      Client.GoalLink ctx goal st = ((none, none), st)) ∧
    (∀ link, st.cache.get (goalKey goal) = some (.resolved link) →
      Client.GoalLink ctx goal st = ((some link, none), st)) ∧
    (st.cache.get (goalKey goal) = none →
      st.calls + 1 ≤ (Client.GoalLink ctx goal st).2.calls) ∧
    (∀ k, (Client.ClearCache st).cache.get k = none) := by
  refine ⟨?_, ?_, ?_, fun k => rfl⟩
  · exact fun t h => goalLink_hit_absent ctx goal st t h
  · exact fun link h => goalLink_hit_resolved ctx goal st link h
  · exact fun h => (goalLink_miss_spec ctx goal st h).2.2.2.1

/-- C5 witness: a ConfirmedAbsent entry is served as no result with the state
untouched. -/
theorem goalLink_cache_semantics_witness :
    Client.GoalLink (ctxOf netDown) g12 stCA = ((none, none), stCA) :=
  (goalLink_cache_semantics (ctxOf netDown) stCA g12).1 0 (by decide)

theorem dedupPhase_spec (c : GoalLinkCache) :
    ∀ (goals : List GoalInfo) (seen : List GoalLinkKey),
    (∀ g ∈ (dedupPhase c goals seen).2, c.get (goalKey g) = none ∧ goalKey g ∉ seen) ∧
    ((dedupPhase c goals seen).2.map goalKey).Nodup ∧
    (∀ k v, (k, v) ∈ (dedupPhase c goals seen).1 →
      c.get k = some (.resolved v) ∧ k ∉ seen) ∧
    (∀ k v, c.get k = some (.resolved v) → k ∈ goals.map goalKey → k ∉ seen →
      (k, v) ∈ (dedupPhase c goals seen).1) := by
  intro goals
  induction goals with
  | nil => intro seen; simp [dedupPhase]
  | cons g rest ih =>
    intro seen
    unfold dedupPhase
    by_cases hmem : goalKey g ∈ seen
    · rw [if_pos hmem]
      obtain ⟨i1, i2, i3, i4⟩ := ih seen
      refine ⟨i1, i2, i3, ?_⟩
      intro k v hk hmap hks
      refine i4 k v hk ?_ hks
      rcases (by simpa using hmap : k = goalKey g ∨ k ∈ rest.map goalKey) with h | h
      · exact absurd (h ▸ hmem) hks
      · exact h
    · rw [if_neg hmem]
      obtain ⟨i1, i2, i3, i4⟩ := ih (goalKey g :: seen)
      cases hget : c.get (goalKey g) with
      | none =>
        refine ⟨?_, ?_, ?_, ?_⟩
        · intro g' hg'
          rcases (by simpa using hg' : g' = g ∨ g' ∈ (dedupPhase c rest (goalKey g :: seen)).2)
            with h | h
          · exact ⟨h ▸ hget, h ▸ hmem⟩
          · obtain ⟨ha, hb⟩ := i1 g' h
            exact ⟨ha, fun hx => hb (List.mem_cons_of_mem _ hx)⟩
        · rw [List.map_cons, List.nodup_cons]
          refine ⟨?_, i2⟩
          intro hx
          obtain ⟨g', hg', he⟩ := List.mem_map.mp hx
          exact (i1 g' hg').2 (he ▸ List.mem_cons_self _ _)
        · intro k v hk
          obtain ⟨ha, hb⟩ := i3 k v hk
          exact ⟨ha, fun hx => hb (List.mem_cons_of_mem _ hx)⟩
        · intro k v hk hmap hks
          rcases (by simpa using hmap : k = goalKey g ∨ k ∈ rest.map goalKey) with h | h
          · rw [h, hget] at hk
            exact absurd hk (by simp)
          · refine i4 k v hk h ?_
            intro hx
            rcases List.mem_cons.mp hx with h' | h'
            · rw [h', hget] at hk
              exact absurd hk (by simp)
            · exact hks h'
      | some e =>
        cases e with
        | resolved link =>
          refine ⟨?_, i2, ?_, ?_⟩
          · intro g' hg'
            obtain ⟨ha, hb⟩ := i1 g' hg'
            exact ⟨ha, fun hx => hb (List.mem_cons_of_mem _ hx)⟩
          · intro k v hk
            rcases List.mem_cons.mp hk with h | h
            · obtain ⟨h1, h2⟩ : k = goalKey g ∧ v = link := by simpa using h
              subst h1
              subst h2
              exact ⟨hget, hmem⟩
            · obtain ⟨ha, hb⟩ := i3 k v h
              exact ⟨ha, fun hx => hb (List.mem_cons_of_mem _ hx)⟩
          · intro k v hk hmap hks
            by_cases hkey : k = goalKey g
            · subst hkey
              rw [hget] at hk
              obtain rfl : link = v := by simpa using hk
              exact List.mem_cons_self _ _
            · rcases (by simpa using hmap : k = goalKey g ∨ k ∈ rest.map goalKey) with h | h
              · exact absurd h hkey
              · refine List.mem_cons_of_mem _ (i4 k v hk h ?_)
                intro hx
                rcases List.mem_cons.mp hx with h' | h'
                · exact hkey h'
                · exact hks h'
        | confirmedAbsent t =>
          refine ⟨?_, i2, ?_, ?_⟩
          · intro g' hg'
            obtain ⟨ha, hb⟩ := i1 g' hg'
            exact ⟨ha, fun hx => hb (List.mem_cons_of_mem _ hx)⟩
          · intro k v hk
            obtain ⟨ha, hb⟩ := i3 k v hk
            exact ⟨ha, fun hx => hb (List.mem_cons_of_mem _ hx)⟩
          · intro k v hk hmap hks
            rcases (by simpa using hmap : k = goalKey g ∨ k ∈ rest.map goalKey) with h | h
            · rw [h, hget] at hk
              exact absurd hk (by simp)
            · refine i4 k v hk h ?_
              intro hx
              rcases List.mem_cons.mp hx with h' | h'
              · rw [h', hget] at hk
                exact absurd hk (by simp)
              · exact hks h'

theorem goalLinksLoop_cons (ctx : Ctx) (g : GoalInfo) (rest : List GoalInfo)
    (i : Nat) (st : ClientSt) :
    goalLinksLoop ctx i (g :: rest) st =
      (let st1 := if i % BatchSize = 0 ∧ i ≠ 0 then
          { st with sleeps := st.sleeps ++ [batchDelayNS] } else st
       let out := Client.GoalLink ctx g st1
       let res := goalLinksLoop ctx (i + 1) rest out.2
       match out.1 with
       | (some link, none) => ((goalKey g, link) :: res.1, res.2)
       | _ => (res.1, res.2)) := rfl

theorem sleepStep_spec (st : ClientSt) (i : Nat) :
    (if i % BatchSize = 0 ∧ i ≠ 0 then
        { st with sleeps := st.sleeps ++ [batchDelayNS] } else st).cache = st.cache ∧
    (if i % BatchSize = 0 ∧ i ≠ 0 then
        { st with sleeps := st.sleeps ++ [batchDelayNS] } else st).resolved = st.resolved ∧
    (if i % BatchSize = 0 ∧ i ≠ 0 then
        { st with sleeps := st.sleeps ++ [batchDelayNS] } else st).calls = st.calls ∧
    (if i % BatchSize = 0 ∧ i ≠ 0 then
        { st with sleeps := st.sleeps ++ [batchDelayNS] } else st).sleeps
      = st.sleeps ++
          List.replicate (if i % BatchSize = 0 ∧ i ≠ 0 then 1 else 0) batchDelayNS := by
  split <;> simp

theorem countBatchMarks_cons (i m : Nat) :
    countBatchMarks i (m + 1)
      = (if i % BatchSize = 0 ∧ i ≠ 0 then 1 else 0) + countBatchMarks (i + 1) m := rfl

theorem goalLinksLoop_spec (ctx : Ctx) :
    ∀ (gs : List GoalInfo) (i : Nat) (st : ClientSt),
    (∀ g ∈ gs, st.cache.get (goalKey g) = none) →
    (gs.map goalKey).Nodup →
    (goalLinksLoop ctx i gs st).2.resolved = st.resolved ++ gs.map goalKey ∧
    (goalLinksLoop ctx i gs st).2.sleeps
      = st.sleeps ++ List.replicate (countBatchMarks i gs.length) batchDelayNS ∧
    (∀ k, k ∉ gs.map goalKey →
      (goalLinksLoop ctx i gs st).2.cache.get k = st.cache.get k) ∧
    (∀ k v, (k, v) ∈ (goalLinksLoop ctx i gs st).1 →
      (goalLinksLoop ctx i gs st).2.cache.get k = some (.resolved v) ∧
        k ∈ gs.map goalKey) := by
  intro gs
  induction gs with
  | nil =>
    intro i st _ _
    simp [goalLinksLoop, countBatchMarks]
  | cons g rest ih =>
    intro i st hun hnd
    rw [List.map_cons, List.nodup_cons] at hnd
    obtain ⟨hkg, hnd'⟩ := hnd
    rw [goalLinksLoop_cons]
    dsimp only
    obtain ⟨sc, sr, scalls, ss⟩ := sleepStep_spec st i
    set st1 := if i % BatchSize = 0 ∧ i ≠ 0 then
        { st with sleeps := st.sleeps ++ [batchDelayNS] } else st with hst1
    have hg : st1.cache.get (goalKey g) = none := by
      rw [sc]
      exact hun g (List.mem_cons_self _ _)
    obtain ⟨ge, gr, gsl, gcalls, gother, gsome, gnone⟩ := goalLink_miss_spec ctx g st1 hg
    have hrest : ∀ g' ∈ rest,
        (Client.GoalLink ctx g st1).2.cache.get (goalKey g') = none := by
      intro g' hg'
      rw [gother (goalKey g') (fun he => hkg (he ▸ List.mem_map_of_mem _ hg')), sc]
      exact hun g' (List.mem_cons_of_mem _ hg')
    obtain ⟨r1, r2, r3, r4⟩ := ih (i + 1) (Client.GoalLink ctx g st1).2 hrest hnd'
    have hpair : (Client.GoalLink ctx g st1).1
        = ((Client.GoalLink ctx g st1).1.1, none) := by
      rw [← ge]
    rw [hpair]
    cases ho : (Client.GoalLink ctx g st1).1.1 with
    | some link =>
      dsimp only
      refine ⟨?_, ?_, ?_, ?_⟩
      · rw [r1, gr, sr]
        simp
      · rw [r2, gsl, ss, List.length_cons, countBatchMarks_cons, List.append_assoc,
          ← List.replicate_add]
      · intro k hk
        rw [List.map_cons, List.mem_cons] at hk
        push_neg at hk
        obtain ⟨hk1, hk2⟩ := hk
        rw [r3 k hk2, gother k hk1, sc]
      · intro k v hkv
        rcases List.mem_cons.mp hkv with h | h
        · obtain ⟨h1, h2⟩ : k = goalKey g ∧ v = link := by simpa using h
          subst h1
          subst h2
          refine ⟨?_, by simp⟩
          rw [r3 _ hkg, gsome _ ho]
        · obtain ⟨ha, hb⟩ := r4 k v h
          refine ⟨ha, ?_⟩
          rw [List.map_cons]
          exact List.mem_cons_of_mem _ hb
    | none =>
      dsimp only
      refine ⟨?_, ?_, ?_, ?_⟩
      · rw [r1, gr, sr]
        simp
      · rw [r2, gsl, ss, List.length_cons, countBatchMarks_cons, List.append_assoc,
          ← List.replicate_add]
      · intro k hk
        rw [List.map_cons, List.mem_cons] at hk
        push_neg at hk
        obtain ⟨hk1, hk2⟩ := hk
        rw [r3 k hk2, gother k hk1, sc]
      · intro k v hkv
        obtain ⟨ha, hb⟩ := r4 k v hkv
        refine ⟨ha, ?_⟩
        rw [List.map_cons]
        exact List.mem_cons_of_mem _ hb

theorem dedupPhase_empty_cache :
    ∀ (goals : List GoalInfo) (seen : List GoalLinkKey),
    (goals.map goalKey).Nodup → (∀ g ∈ goals, goalKey g ∉ seen) →
    dedupPhase [] goals seen = ([], goals) := by
  intro goals
  induction goals with
  | nil => intro seen _ _; rfl
  | cons g rest ih =>
    intro seen hnd hdis
    rw [List.map_cons, List.nodup_cons] at hnd
    obtain ⟨hkg, hnd'⟩ := hnd
    have hdis' : ∀ g' ∈ rest, goalKey g' ∉ goalKey g :: seen := by
      intro g' hg' hx
      rcases List.mem_cons.mp hx with h | h
      · exact hkg (h ▸ List.mem_map_of_mem _ hg')
      · exact hdis g' (List.mem_cons_of_mem _ hg') h
    unfold dedupPhase
    rw [if_neg (hdis g (List.mem_cons_self _ _)), ih _ hnd' hdis']
    rfl

/-- C6: in `GoalLinks`, resolution work is performed at most once per distinct
identity (the `resolved` trace has no duplicates), identities already cached
never reach the resolution step, cached Resolved entries are served into the
output map from the cache, and ConfirmedAbsent identities never appear in the
output map. -/
theorem goalLinks_dedup_and_cache (ctx : Ctx) (goals : List GoalInfo)
    (c0 : GoalLinkCache) :
    ((Client.GoalLinks ctx goals (initSt c0)).2.resolved).Nodup ∧
    (∀ k e, c0.get k = some e →
      k ∉ (Client.GoalLinks ctx goals (initSt c0)).2.resolved) ∧
    (∀ k link, c0.get k = some (.resolved link) → k ∈ goals.map goalKey →
      (k, link) ∈ (Client.GoalLinks ctx goals (initSt c0)).1) ∧
    (∀ k t v, c0.get k = some (.confirmedAbsent t) →
      (k, v) ∉ (Client.GoalLinks ctx goals (initSt c0)).1) := by
  obtain ⟨d1, d2, d3, d4⟩ := dedupPhase_spec c0 goals []
  have key : Client.GoalLinks ctx goals (initSt c0)
      = ((dedupPhase c0 goals []).1
          ++ (goalLinksLoop ctx 0 (dedupPhase c0 goals []).2 (initSt c0)).1,
         (goalLinksLoop ctx 0 (dedupPhase c0 goals []).2 (initSt c0)).2) := rfl
  have hun : ∀ g ∈ (dedupPhase c0 goals []).2,
      (initSt c0).cache.get (goalKey g) = none := fun g hg => (d1 g hg).1
  obtain ⟨l1, l2, l3, l4⟩ :=
    goalLinksLoop_spec ctx (dedupPhase c0 goals []).2 0 (initSt c0) hun d2
  rw [key]
  refine ⟨?_, ?_, ?_, ?_⟩
  · rw [l1]
    simpa [initSt] using d2
  · intro k e hk
    rw [l1]
    simp only [initSt, List.nil_append]
    intro hx
    obtain ⟨g, hg, he⟩ := List.mem_map.mp hx
    rw [← he] at hk
    rw [(d1 g hg).1] at hk
    cases hk
  · intro k link hk hmap
    exact List.mem_append_left _ (d4 k link hk hmap (by simp))
  · intro k t v hk hkv
    rcases List.mem_append.mp hkv with h | h
    · have := (d3 k v h).1
      rw [hk] at this
      cases this
    · obtain ⟨-, hmem⟩ := l4 k v h
      obtain ⟨g, hg, he⟩ := List.mem_map.mp hmem
      have := (d1 g hg).1
      rw [he] at this
      rw [this] at hk
      cases hk

/-- C6 witness: a cached Resolved entry, listed among the (duplicated) input
identities, is served from the cache into the output map. -/
theorem goalLinks_dedup_and_cache_witness :
    ((⟨1, 2⟩ : GoalLinkKey), linkEx)
      ∈ (Client.GoalLinks (ctxOf netDown) [g12, g12, g34, g56] (initSt cacheEx)).1 :=
  (goalLinks_dedup_and_cache (ctxOf netDown) [g12, g12, g34, g56] cacheEx).2.2.1
    ⟨1, 2⟩ linkEx (by decide) (by decide)

/-- C7: over an empty cache and distinct identities, `GoalLinks` performs
resolution work sequentially in input order, and its only sleeps are the fixed
2-second batch delays, one before every batch of `BatchSize = 5` except the
first; in particular 12 identities are processed with exactly 2 delays
(batches of 5, 5 and 2). -/
theorem goalLinks_batching (ctx : Ctx) (goals : List GoalInfo)
    (hnd : (goals.map goalKey).Nodup) :
    (Client.GoalLinks ctx goals (initSt [])).2.resolved = goals.map goalKey ∧
    (Client.GoalLinks ctx goals (initSt [])).2.sleeps
      = List.replicate (countBatchMarks 0 goals.length) batchDelayNS ∧
    BatchSize = 5 ∧
    batchDelayNS = 2 * 1000000000 ∧
    countBatchMarks 0 12 = 2 ∧
    (goals.length = 12 →
      (Client.GoalLinks ctx goals (initSt [])).2.sleeps
        = [batchDelayNS, batchDelayNS]) := by
  have hd : dedupPhase [] goals [] = ([], goals) :=
    dedupPhase_empty_cache goals [] hnd (by simp)
  have key : Client.GoalLinks ctx goals (initSt [])
      = ((dedupPhase [] goals []).1
          ++ (goalLinksLoop ctx 0 (dedupPhase [] goals []).2 (initSt [])).1,
         (goalLinksLoop ctx 0 (dedupPhase [] goals []).2 (initSt [])).2) := rfl
  rw [hd] at key
  obtain ⟨l1, l2, l3, l4⟩ :=
    goalLinksLoop_spec ctx goals 0 (initSt []) (fun g _ => rfl) hnd
  rw [key]
  refine ⟨?_, ?_, rfl, rfl, by decide, ?_⟩
  · rw [l1]
    simp [initSt]
  · rw [l2]
    simp [initSt]
  · intro h12
    rw [l2, h12]
    simp only [initSt]
    rw [show countBatchMarks 0 12 = 2 by decide]
    rfl

/-- C7 witness: twelve distinct uncached identities yield exactly two
2-second inter-batch delays. -/
theorem goalLinks_batching_witness :
    (Client.GoalLinks (ctxOf netHard) goalsEx12 (initSt [])).2.sleeps
      = [batchDelayNS, batchDelayNS] :=
  (goalLinks_batching (ctxOf netHard) goalsEx12 (by decide)).2.2.2.2.2 (by decide)

/-- C10: every key to link pair of the map `GoalLinks` returns is marked
Resolved (with exactly that link) in the final cache — never the not-found
marker — and each such link came either from an initially cached Resolved
entry or from a fresh successful resolution of a previously Unknown identity. -/
theorem goalLinks_values_resolved (ctx : Ctx) (goals : List GoalInfo)
    (c0 : GoalLinkCache) :
    (∀ k v, (k, v) ∈ (Client.GoalLinks ctx goals (initSt c0)).1 →
      (Client.GoalLinks ctx goals (initSt c0)).2.cache.get k
        = some (.resolved v)) ∧
    (∀ k v, (k, v) ∈ (Client.GoalLinks ctx goals (initSt c0)).1 →
      c0.get k = some (.resolved v) ∨
        (c0.get k = none ∧
          k ∈ (Client.GoalLinks ctx goals (initSt c0)).2.resolved)) := by
  obtain ⟨d1, d2, d3, d4⟩ := dedupPhase_spec c0 goals []
  have key : Client.GoalLinks ctx goals (initSt c0)
      = ((dedupPhase c0 goals []).1
          ++ (goalLinksLoop ctx 0 (dedupPhase c0 goals []).2 (initSt c0)).1,
         (goalLinksLoop ctx 0 (dedupPhase c0 goals []).2 (initSt c0)).2) := rfl
  have hun : ∀ g ∈ (dedupPhase c0 goals []).2,
      (initSt c0).cache.get (goalKey g) = none := fun g hg => (d1 g hg).1
  obtain ⟨l1, l2, l3, l4⟩ :=
    goalLinksLoop_spec ctx (dedupPhase c0 goals []).2 0 (initSt c0) hun d2
  rw [key]
  constructor
  · intro k v hkv
    rcases List.mem_append.mp hkv with h | h
    · have hres := (d3 k v h).1
      have hnotin : k ∉ (dedupPhase c0 goals []).2.map goalKey := by
        intro hx
        obtain ⟨g, hg, he⟩ := List.mem_map.mp hx
        have := (d1 g hg).1
        rw [he] at this
        rw [this] at hres
        cases hres
      rw [l3 k hnotin]
      exact hres
    · exact (l4 k v h).1
  · intro k v hkv
    rcases List.mem_append.mp hkv with h | h
    · exact Or.inl (d3 k v h).1
    · obtain ⟨-, hmem⟩ := l4 k v h
      obtain ⟨g, hg, he⟩ := List.mem_map.mp hmem
      refine Or.inr ⟨?_, ?_⟩
      · have := (d1 g hg).1
        rw [he] at this
        exact this
      · rw [l1]
        simp only [initSt, List.nil_append]
        exact hmem

/-- C10 witness: the link served for a cached Resolved identity is marked
Resolved in the final cache. -/
theorem goalLinks_values_resolved_witness :
    (Client.GoalLinks (ctxOf netDown) [g12] (initSt cacheEx)).2.cache.get ⟨1, 2⟩
      = some (.resolved linkEx) :=
  (goalLinks_values_resolved (ctxOf netDown) [g12] cacheEx).1 ⟨1, 2⟩ linkEx (by decide)

end Golazo
